import Mathlib

/-!
Shallow embedding of `src/producers/producer_core.py` (RemyPorter/Producers).

The Python module defines a queue-based producer: a `Producer` owning an
inbound and an outbound `multiprocessing.Queue`, a worker loop `run` that
drains inbound messages and appends production results (or wrapped errors)
to the outbound queue, and an `InjectableProducer` specialization driven by
injected callables over a copied dict state.

Modelling conventions:
* Python values are `PyVal` (ints, strings, tuples, dicts, None).
* Exceptions are `Err` values; fallible code returns `Except Err _` or an
  explicit error component.
* `multiprocessing.Queue` is `Queue α`: an item list, a `maxsize` field
  (`0` = unbounded, matching Python where `Queue()` / `maxsize<=0` means
  unbounded), and a `closed` flag.  `put` on a closed queue raises
  (`assert not self._closed` in Python 2.7, `ValueError` in Python 3.8+);
  `put` on a full open queue blocks; these outcomes are modelled explicitly.
* The worker runs in a forked child, so `self.outbound` and the `outbound`
  parameter of `run` denote the same queue object; they are modelled as one.
-/

namespace Producers

/-- Dynamic Python values appearing as payloads, states and results. -/
inductive PyVal where
  | none
  | int (n : Int)
  | str (s : String)
  | tuple (elems : List PyVal)
  | dict (entries : List (String × PyVal))

/-- Exception values: the module's protocol errors, queue errors, and
arbitrary user exceptions raised by subclass / injected code. -/
inductive Err where
  | alreadyStarted
  | notStarted
  | queueClosed
  | queueFull
  | typeError
  | user (v : PyVal)

/-- an inbound message: either the distinguished StopMessage sentinel
(`isinstance(msg, StopMessage)` in the source) or an arbitrary host payload. -/
inductive Msg where
  | stop
  | payload (v : PyVal)

/-- an outbound item: a production value, or one of the two `ProductionError`
subclasses, each carrying the original cause in `base_exception`. -/
inductive Item where
  | val (v : PyVal)
  | msgErr (base : Err)
  | stepErr (base : Err)

/-- `isinstance(res, ProductionError)`: true exactly for the two wrapped
error items. -/
def Item.isProductionError : Item → Bool
  | .val _ => false
  | .msgErr _ => true
  | .stepErr _ => true

/-- Model of `multiprocessing.Queue`: buffered items, `maxsize` (`0` means
unbounded), and the per-process `closed` flag set by `close()`. -/
structure Queue (α : Type) where
  items : List α
  maxsize : Nat
  closed : Bool

/-- `Queue.full()`: with a positive maxsize, true when the buffer has reached
it; an unbounded queue (maxsize 0) is never full. -/
def Queue.full (q : Queue α) : Bool :=
  decide (0 < q.maxsize ∧ q.maxsize ≤ q.items.length)

/-- `Queue.empty()`. -/
def Queue.isEmptyQ (q : Queue α) : Bool :=
  q.items.isEmpty

/-- Raw append, used once closedness and fullness have been dealt with. -/
def Queue.push (q : Queue α) (x : α) : Queue α :=
  { q with items := q.items ++ [x] }

/-- `Queue.close()`. -/
def Queue.close (q : Queue α) : Queue α :=
  { q with closed := true }

/-- `Queue.put_nowait(x)`: raises if the queue is closed, raises `Full` if at
capacity, otherwise appends. -/
def Queue.putNowait (q : Queue α) (x : α) : Except Err (Queue α) :=
  if q.closed then .error .queueClosed
  else if q.full then .error .queueFull
  else .ok (q.push x)

/-- Host-visible producer state: `_did_start`, `_running`, `self.process`,
and the two queues created in `Producer.__init__`. -/
structure PState where
  didStart : Bool
  running : Bool
  hasProcess : Bool
  inbound : Queue Msg
  outbound : Queue Item

/-- `Producer.__init__(buffer_size)`: a fresh unbounded inbound queue; the
outbound queue is unbounded when `buffer_size is None`, else bounded to
`buffer_size` (Python's `Queue(maxsize=n)`, where `n <= 0` is unbounded). -/
def producerInit (bufferSize : Option Nat) : PState :=
  { didStart := false
    running := false
    hasProcess := false
    inbound := ⟨[], 0, false⟩
    outbound := ⟨[], bufferSize.getD 0, false⟩ }

/-- `Producer()` with the default argument `buffer_size=None`. -/
def producerInitDefault : PState :=
  producerInit none

/-- `Producer.start()`: raises `AlreadyStartedError` when `_did_start` is
already set (before any mutation); otherwise records the process and sets
both flags. -/
def start (p : PState) : PState × Option Err :=
  if p.didStart then (p, some .alreadyStarted)
  else ({ p with hasProcess := true, didStart := true, running := true }, none)

/-- `Producer.send(msg)`: `self.inbound.put_nowait(msg)`. -/
def send (p : PState) (m : Msg) : PState × Option Err :=
  match p.inbound.putNowait m with
  | .ok q => ({ p with inbound := q }, none)
  | .error e => (p, some e)

/-- `Producer.stop()`: only when `_did_start`, send the STOP_MESSAGE
sentinel; otherwise fall through and return normally. -/
def stop (p : PState) : PState × Option Err :=
  if p.didStart then send p Msg.stop else (p, none)

/-- Outcome of `Producer.get(timeout)` as seen by the host. -/
inductive GetResult where
  | value (v : PyVal) (rest : List Item)
  | raisedError (it : Item) (rest : List Item)
  | timedOut
  | notStarted

/-- `Producer.get(timeout)`: raises `NotStartedException` when never started;
otherwise dequeues the next outbound item (raising `queue.Empty` on timeout
when nothing is buffered), and raises the item itself when it is a
`ProductionError`. -/
def get (p : PState) : GetResult :=
  if p.didStart = false then .notStarted
  else
    match p.outbound.items with
    | [] => .timedOut
    | Item.val v :: rest => .value v rest
    | Item.msgErr e :: rest => .raisedError (Item.msgErr e) rest
    | Item.stepErr e :: rest => .raisedError (Item.stepErr e) rest

/-- Subclass-supplied behavior: the two abstract operations of `Producer`.
`handleMsg` embeds `handle_message` (it may mutate subclass state `σ` or
raise), `prodStep` embeds `production_step` (new subclass state plus the
returned value, or a raised exception). -/
structure Behavior (σ : Type) where
  handleMsg : σ → PyVal → Except Err σ
  prodStep : σ → Except Err (σ × PyVal)

/-- Observable worker events of one loop iteration: an invocation of
`handle_message` on a payload (with the exception it raised, if any), the
draining of the Stop sentinel, and an invocation of `production_step` (with
its outcome). -/
inductive Event where
  | handled (v : PyVal) (err : Option Err)
  | stopDrained
  | produced (res : Except Err PyVal)

/-- an event is a `production_step` invocation. -/
def Event.isProduced : Event → Bool
  | .produced _ => true
  | _ => false

/-- the outbound item an event contributes, if any: a raising handler
contributes `MessageHandlingError(cause)`, a production attempt contributes
its value or `ProductionStepError(cause)`. -/
def eventItem : Event → Option Item
  | .handled _ (some e) => some (.msgErr e)
  | .handled _ none => none
  | .stopDrained => none
  | .produced (.ok v) => some (.val v)
  | .produced (.error e) => some (.stepErr e)

/-- Outcome of the inner `while not inbound.empty()` drain loop of
`Producer.run`:
* `done`: all pending messages consumed, control falls through to the
  production section;
* `stopped`: the Stop sentinel was drained, `_shutdown()` ran (outbound
  closed; the caller also closes inbound and clears the running flag) and
  the loop was exited by `break`, leaving `rest` undrained;
* `blocked`: a `MessageHandlingError` put blocked on a full outbound queue;
* `crashed`: a put on a closed queue raised out of the loop. -/
inductive DrainOut (σ : Type) where
  | done (out : Queue Item) (st : σ) (evs : List Event)
  | stopped (out : Queue Item) (st : σ) (evs : List Event) (rest : List Msg)
  | blocked (out : Queue Item) (st : σ) (evs : List Event) (rest : List Msg) (e : Err)
  | crashed (out : Queue Item) (st : σ) (evs : List Event) (rest : List Msg) (e : Err)

/-- Prepend an event to a drain outcome's event log. -/
def DrainOut.consEv (e : Event) : DrainOut σ → DrainOut σ
  | .done out st evs => .done out st (e :: evs)
  | .stopped out st evs rest => .stopped out st (e :: evs) rest
  | .blocked out st evs rest ex => .blocked out st (e :: evs) rest ex
  | .crashed out st evs rest ex => .crashed out st (e :: evs) rest ex

/-- The drain loop of `Producer.run`: dequeue each pending message; the Stop
sentinel (detected by `isinstance`, i.e. by constructor, never by equality
with a payload) triggers `_shutdown()` and `break`; any other message goes
to `handle_message`, whose exception is caught and put on the outbound
queue as `MessageHandlingError(e)` (a put that blocks on a full queue or
raises on a closed queue is recorded as such). -/
def drain (B : Behavior σ) : List Msg → Queue Item → σ → DrainOut σ
  | [], out, st => .done out st []
  | Msg.stop :: rest, out, st => .stopped (Queue.close out) st [Event.stopDrained] rest
  | Msg.payload v :: rest, out, st =>
    match B.handleMsg st v with
    | .ok st2 => DrainOut.consEv (.handled v none) (drain B rest out st2)
    | .error e =>
      if out.closed then .crashed out st [.handled v (some e)] rest Err.queueClosed
      else if out.full then .blocked out st [.handled v (some e)] rest e
      else DrainOut.consEv (.handled v (some e)) (drain B rest (out.push (Item.msgErr e)) st)

/-- Outcome of the production section of one iteration: either it completes
(possibly having skipped production because the queue was full), or a put on
a closed queue raised uncaught out of `run`. -/
inductive ProdOut (σ : Type) where
  | pdone (out : Queue Item) (st : σ) (evs : List Event)
  | pcrash (out : Queue Item) (st : σ) (evs : List Event) (e : Err)

/-- The production section of `Producer.run`:
`if not outbound.full(): try: outbound.put(self.production_step())
except Exception as e: self.outbound.put(ProductionStepError(e))`.
The full check is evaluated first (it reads the buffer even on a closed
queue); when not full, `production_step` is invoked; a put on a closed
queue raises, is caught, and the wrapping put raises again, uncaught. -/
def prodSection (B : Behavior σ) (out : Queue Item) (st : σ) : ProdOut σ :=
  if out.full then .pdone out st []
  else
    match B.prodStep st with
    | .ok (st2, v) =>
      if out.closed then .pcrash out st2 [.produced (.ok v)] Err.queueClosed
      else .pdone (out.push (Item.val v)) st2 [.produced (.ok v)]
    | .error e =>
      if out.closed then .pcrash out st [.produced (.error e)] Err.queueClosed
      else .pdone (out.push (Item.stepErr e)) st [.produced (.error e)]

/-- Worker-side state: the two queues as seen inside the child process, the
`_running` flag, and the subclass state `σ`. -/
structure WState (σ : Type) where
  inbound : Queue Msg
  outbound : Queue Item
  running : Bool
  sub : σ

/-- Outcome of one iteration of the outer `while self._running` loop. -/
inductive IterOut (σ : Type) where
  | next (s : WState σ) (evs : List Event)
  | blocked (s : WState σ) (evs : List Event) (e : Err)
  | crash (s : WState σ) (evs : List Event) (e : Err)

/-- the event log of an iteration outcome. -/
def IterOut.evs : IterOut σ → List Event
  | .next _ evs => evs
  | .blocked _ evs _ => evs
  | .crash _ evs _ => evs

/-- the outbound queue of an iteration outcome. -/
def IterOut.outQ : IterOut σ → Queue Item
  | .next s _ => s.outbound
  | .blocked s _ _ => s.outbound
  | .crash s _ _ => s.outbound

/-- the event log of a drain outcome. -/
def DrainOut.evsOf : DrainOut σ → List Event
  | .done _ _ evs => evs
  | .stopped _ _ evs _ => evs
  | .blocked _ _ evs _ _ => evs
  | .crashed _ _ evs _ _ => evs

/-- the outbound queue of a drain outcome. -/
def DrainOut.outOf : DrainOut σ → Queue Item
  | .done out _ _ => out
  | .stopped out _ _ _ => out
  | .blocked out _ _ _ _ => out
  | .crashed out _ _ _ _ => out

/-- the outbound queue of a production-section outcome. -/
def ProdOut.outOf : ProdOut σ → Queue Item
  | .pdone out _ _ => out
  | .pcrash out _ _ _ => out

/-- One iteration of the body of `while self._running` in `Producer.run`:
first the drain loop, then (unless the drain blocked or crashed) the
production section.  When the Stop sentinel was drained, `_shutdown()` has
closed both queues and cleared the running flag, but control still falls
through to the production section of the same iteration. -/
def runIter (B : Behavior σ) (s : WState σ) : IterOut σ :=
  match drain B s.inbound.items s.outbound s.sub with
  | .done out st evs =>
    match prodSection B out st with
    | .pdone out2 st2 pevs =>
      .next ⟨⟨[], s.inbound.maxsize, s.inbound.closed⟩, out2, s.running, st2⟩ (evs ++ pevs)
    | .pcrash out2 st2 pevs e =>
      .crash ⟨⟨[], s.inbound.maxsize, s.inbound.closed⟩, out2, s.running, st2⟩ (evs ++ pevs) e
  | .stopped out st evs rest =>
    match prodSection B out st with
    | .pdone out2 st2 pevs =>
      .next ⟨⟨rest, s.inbound.maxsize, true⟩, out2, false, st2⟩ (evs ++ pevs)
    | .pcrash out2 st2 pevs e =>
      .crash ⟨⟨rest, s.inbound.maxsize, true⟩, out2, false, st2⟩ (evs ++ pevs) e
  | .blocked out st evs rest e =>
    .blocked ⟨⟨rest, s.inbound.maxsize, s.inbound.closed⟩, out, s.running, st⟩ evs e
  | .crashed out st evs rest e =>
    .crash ⟨⟨rest, s.inbound.maxsize, s.inbound.closed⟩, out, s.running, st⟩ evs e

/-- Result of running the worker loop with a given amount of fuel:
`finished` models `run` returning `None` after the `while self._running`
check fails; `crashed` models an uncaught exception; `stuckBlocked` models
the worker waiting on a blocking put; `fuelOut` means the loop was still
going when the fuel ran out. -/
inductive RunResult (σ : Type) where
  | finished (s : WState σ) (evs : List Event)
  | crashed (s : WState σ) (evs : List Event) (e : Err)
  | stuckBlocked (s : WState σ) (evs : List Event) (e : Err)
  | fuelOut (s : WState σ) (evs : List Event)

/-- Prepend events to a run result's event log. -/
def RunResult.consEvs (pre : List Event) : RunResult σ → RunResult σ
  | .finished s evs => .finished s (pre ++ evs)
  | .crashed s evs e => .crashed s (pre ++ evs) e
  | .stuckBlocked s evs e => .stuckBlocked s (pre ++ evs) e
  | .fuelOut s evs => .fuelOut s (pre ++ evs)

/-- The outer `while self._running` loop of `Producer.run`, fueled. -/
def runLoop (B : Behavior σ) : Nat → WState σ → RunResult σ
  | 0, s => .fuelOut s []
  | Nat.succ n, s =>
    if s.running then
      match runIter B s with
      | .next s2 evs => RunResult.consEvs evs (runLoop B n s2)
      | .blocked s2 evs e => .stuckBlocked s2 evs e
      | .crash s2 evs e => .crashed s2 evs e
    else .finished s []

/-- the `isinstance(msg, StopMessage)` test: true exactly for the sentinel. -/
def isStopMessage : Msg → Bool
  | .stop => true
  | .payload _ => false

/-- Event log the drain loop emits when it neither blocks nor crashes:
payloads are handled in order with the state threaded through successful
handler calls, and the first Stop sentinel truncates the drain. -/
def expectedDrainEvents (B : Behavior σ) : σ → List Msg → List Event
  | _, [] => []
  | _, Msg.stop :: _ => [Event.stopDrained]
  | st, Msg.payload v :: rest =>
    match B.handleMsg st v with
    | .ok st2 => Event.handled v none :: expectedDrainEvents B st2 rest
    | .error e => Event.handled v (some e) :: expectedDrainEvents B st rest

/-- Strict drain-before-produce priority for one iteration: whenever a
`production_step` invocation appears in the event log, the log is exactly
the full in-order drain of the pending inbound messages followed by that
single production attempt, last. -/
def producedPriority (B : Behavior σ) (s : WState σ) (evs : List Event) : Prop :=
  ∀ r, Event.produced r ∈ evs →
    evs = expectedDrainEvents B s.sub s.inbound.items ++ [Event.produced r]

/-- Python `d[k] = v` on an association-list dict: replace in place if the
key exists, else append. -/
def dictSet : List (String × PyVal) → String → PyVal → List (String × PyVal)
  | [], k, v => [(k, v)]
  | (k2, v2) :: rest, k, v =>
    if k2 = k then (k, v) :: rest else (k2, v2) :: dictSet rest k v

/-- Python `d.update(src)`: assign each key/value of `src` into `d` in
order. -/
def pyDictUpdate (d src : List (String × PyVal)) : List (String × PyVal) :=
  src.foldl (fun acc kv => dictSet acc kv.1 kv.2) d

/-- the snapshot taken by `InjectableProducer`:
`freeze_state = {}; freeze_state.update(self._state)` — a shallow copy of a
dict state; updating from a non-dict raises `TypeError`. -/
def freezeState : PyVal → Except Err PyVal
  | .dict es => .ok (.dict (pyDictUpdate [] es))
  | _ => .error .typeError

/-- `InjectableProducer`'s injected callables and its `_state`. -/
structure Injectable where
  production : Option (PyVal → Except Err PyVal)
  handler : Option (PyVal → PyVal → Except Err PyVal)
  state : PyVal

/-- `InjectableProducer.handle_message(msg)`: no-op without a handler; else
copy the current state, call the handler on the message and the copy, and
assign the returned value to `_state` (so a raising handler leaves `_state`
untouched). -/
def injHandleMessage (p : Injectable) (msg : PyVal) : Except Err Injectable :=
  match p.handler with
  | none => .ok p
  | some h =>
    match freezeState p.state with
    | .error e => .error e
    | .ok frozen =>
      match h msg frozen with
      | .error e => .error e
      | .ok newSt => .ok { p with state := newSt }

/-- `InjectableProducer.production_step()`: `None` without a production
callable; else copy the state and call the callable on the copy; when
`isinstance(result, tuple) and len(result) > 1`, assign `result[0]` to
`_state` and return `result[1]`; otherwise return the result unchanged. -/
def injProductionStep (p : Injectable) : Except Err (Injectable × PyVal) :=
  match p.production with
  | none => .ok (p, PyVal.none)
  | some f =>
    match freezeState p.state with
    | .error e => .error e
    | .ok frozen =>
      match f frozen with
      | .error e => .error e
      | .ok (PyVal.tuple (a :: b :: _)) => .ok ({ p with state := a }, b)
      | .ok r => .ok (p, r)

/-- the `isinstance(result, tuple) and len(result) > 1` test. -/
def isTupleLenGtOne : PyVal → Bool
  | .tuple (_ :: _ :: _) => true
  | _ => false

/-- `InjectableProducer` adapted to the core's two abstract operations. -/
def injBehavior : Behavior Injectable where
  handleMsg := injHandleMessage
  prodStep := injProductionStep

/-- `InjectableProducer.__init__(produce_callable, handle_callable,
initial_state, buffer_size)`: stores the callables and the initial state and
calls `Producer.__init__(buffer_size)`. -/
def injectableInit (produce : Option (PyVal → Except Err PyVal))
    (handle : Option (PyVal → PyVal → Except Err PyVal))
    (initialState : PyVal) (bufferSize : Option Nat) : Injectable × PState :=
  ({ production := produce, handler := handle, state := initialState }, producerInit bufferSize)

/-- `InjectableProducer(...)` with the default argument `buffer_size=100`
(an integer, unlike `Producer.__init__`'s default `buffer_size=None`). -/
def injectableInitDefault (produce : Option (PyVal → Except Err PyVal))
    (handle : Option (PyVal → PyVal → Except Err PyVal))
    (initialState : PyVal) : Injectable × PState :=
  injectableInit produce handle initialState (some 100)

/-! Concrete instances used to evaluate the model on specific inputs. -/

/-- a producer that has been started (second `start()` scenario). -/
def pStarted : PState :=
  { producerInit none with didStart := true, running := true, hasProcess := true }

/-- a started producer whose outbound buffer holds a value and a wrapped
production error. -/
def pReady : PState :=
  { didStart := true, running := true, hasProcess := true
    inbound := ⟨[], 0, false⟩
    outbound := ⟨[Item.val (PyVal.int 5), Item.stepErr (Err.user (PyVal.str "e"))], 2, false⟩ }

/-- trivial subclass behavior: handler succeeds, production returns `7`. -/
def bCount : Behavior Unit where
  handleMsg := fun _ _ => .ok ()
  prodStep := fun _ => .ok ((), PyVal.int 7)

/-- subclass behavior whose two operations both raise. -/
def bRaise : Behavior Unit where
  handleMsg := fun _ _ => .error (.user (PyVal.str "hboom"))
  prodStep := fun _ => .error (.user (PyVal.str "boom"))

/-- worker state: the Stop sentinel pending, outbound unbounded and empty. -/
def sStopEmpty : WState Unit :=
  ⟨⟨[Msg.stop], 0, false⟩, ⟨[], 0, false⟩, true, ()⟩

/-- worker state: the Stop sentinel pending, outbound full (capacity 1). -/
def sStopFull : WState Unit :=
  ⟨⟨[Msg.stop], 0, false⟩, ⟨[Item.val (PyVal.int 0)], 1, false⟩, true, ()⟩

/-- worker state: no pending input, outbound unbounded and empty. -/
def sIdle : WState Unit :=
  ⟨⟨[], 0, false⟩, ⟨[], 0, false⟩, true, ()⟩

/-- worker state: a burst of two payloads pending. -/
def sBurst : WState Unit :=
  ⟨⟨[Msg.payload (PyVal.int 1), Msg.payload (PyVal.int 2)], 0, false⟩, ⟨[], 0, false⟩, true, ()⟩

/-- worker state: one payload pending, outbound bounded to 1 and empty. -/
def sOneMsg : WState Unit :=
  ⟨⟨[Msg.payload (PyVal.int 1)], 0, false⟩, ⟨[], 1, false⟩, true, ()⟩

/-- the state reached from `sOneMsg` after one iteration under `bRaise`. -/
def sOneMsgNext : WState Unit :=
  ⟨⟨[], 0, false⟩, ⟨[Item.msgErr (Err.user (PyVal.str "hboom"))], 1, false⟩, true, ()⟩

/-- injectable whose production callable returns a three-element tuple. -/
def cexTripleInj : Injectable :=
  { production := some fun _ => .ok (PyVal.tuple [PyVal.int 1, PyVal.int 2, PyVal.int 3])
    handler := none
    state := PyVal.dict [] }

/-- injectable whose production callable returns the canonical
`(new_state, result)` pair. -/
def wInjPair : Injectable :=
  { production := some fun st => .ok (PyVal.tuple [st, PyVal.int 9])
    handler := none
    state := PyVal.dict [] }

/-- injectable whose handler always raises. -/
def wFailInj : Injectable :=
  { production := none
    handler := some fun _ _ => .error (.user (PyVal.str "boom"))
    state := PyVal.dict [("i", PyVal.int 0)] }

/-! Helper lemmas on the dict model. -/

/-- Assigning a fresh key appends it. -/
theorem dictSet_not_mem (acc : List (String × PyVal)) (k : String) (v : PyVal)
    (h : k ∉ acc.map Prod.fst) : dictSet acc k v = acc ++ [(k, v)] := by
  induction acc with
  | nil => rfl
  | cons kv rest ih =>
    obtain ⟨k2, v2⟩ := kv
    simp only [List.map_cons, List.mem_cons] at h
    push_neg at h
    simp only [dictSet]
    rw [if_neg (fun he => h.1 he.symm), ih h.2]
    simp

/-- `d.update(src)` with fresh, duplicate-free source keys appends `src`. -/
theorem pyDictUpdate_fresh (src : List (String × PyVal)) :
    ∀ acc : List (String × PyVal),
      (∀ k ∈ src.map Prod.fst, k ∉ acc.map Prod.fst) → (src.map Prod.fst).Nodup →
      pyDictUpdate acc src = acc ++ src := by
  induction src with
  | nil => intro acc _ _; simp [pyDictUpdate]
  | cons kv t ih =>
    intro acc hfresh hnd
    obtain ⟨k, v⟩ := kv
    simp only [List.map_cons, List.nodup_cons] at hnd
    have hk : k ∉ acc.map Prod.fst := hfresh k (by simp)
    have step : pyDictUpdate acc ((k, v) :: t) = pyDictUpdate (dictSet acc k v) t := rfl
    rw [step, dictSet_not_mem acc k v hk, ih (acc ++ [(k, v)]) ?_ hnd.2]
    · simp
    · intro k2 hk2 hmem
      simp only [List.map_append, List.mem_append, List.map_cons, List.map_nil,
        List.mem_cons, List.not_mem_nil, or_false] at hmem
      cases hmem with
      | inl hin => exact hfresh k2 (by simp [hk2]) hin
      | inr he => exact hnd.1 (he ▸ hk2)

/-- Copying a dict with duplicate-free keys reproduces it exactly. -/
theorem freezeState_copy (es : List (String × PyVal)) (h : (es.map Prod.fst).Nodup) :
    freezeState (PyVal.dict es) = .ok (PyVal.dict es) := by
  simp only [freezeState]
  rw [pyDictUpdate_fresh es [] (by simp) h]
  rfl

/-! Structural lemmas on the worker loop. -/

/-- The drain phase never emits a production event (production happens only
in the production section). -/
theorem expected_no_produced (B : Behavior σ) :
    ∀ (msgs : List Msg) (st : σ) (r : Except Err PyVal),
      Event.produced r ∉ expectedDrainEvents B st msgs := by
  intro msgs
  induction msgs with
  | nil => intro st r; simp [expectedDrainEvents]
  | cons m rest ih =>
    intro st r
    cases m with
    | stop => simp [expectedDrainEvents]
    | payload v =>
      cases hB : B.handleMsg st v with
      | ok st2 =>
        simp only [expectedDrainEvents, hB, List.mem_cons]
        rintro (h | h)
        · exact Event.noConfusion h
        · exact ih st2 r h
      | error e =>
        simp only [expectedDrainEvents, hB, List.mem_cons]
        rintro (h | h)
        · exact Event.noConfusion h
        · exact ih st r h

/-- When the drain loop consumes all pending messages, its event log is the
full in-order drain log. -/
theorem drain_done_events (B : Behavior σ) :
    ∀ (msgs : List Msg) (out : Queue Item) (st : σ) (out2 : Queue Item) (st2 : σ)
      (evs : List Event),
      drain B msgs out st = .done out2 st2 evs → evs = expectedDrainEvents B st msgs := by
  intro msgs
  induction msgs with
  | nil =>
    intro out st out2 st2 evs h
    simp only [drain, DrainOut.done.injEq] at h
    simp [expectedDrainEvents, h.2.2.symm]
  | cons m rest ih =>
    intro out st out2 st2 evs h
    cases m with
    | stop => simp [drain] at h
    | payload v =>
      cases hB : B.handleMsg st v with
      | ok st3 =>
        simp only [drain, hB] at h
        cases hD : drain B rest out st3 with
        | done o s e =>
          rw [hD] at h
          simp only [DrainOut.consEv, DrainOut.done.injEq] at h
          simp only [expectedDrainEvents, hB, ← h.2.2]
          exact congrArg _ (ih out st3 o s e hD)
        | stopped o s e r2 => rw [hD] at h; simp [DrainOut.consEv] at h
        | blocked o s e r2 x => rw [hD] at h; simp [DrainOut.consEv] at h
        | crashed o s e r2 x => rw [hD] at h; simp [DrainOut.consEv] at h
      | error e =>
        simp only [drain, hB] at h
        by_cases hcl : out.closed
        · simp [hcl] at h
        · simp only [hcl, Bool.false_eq_true, if_false] at h
          by_cases hfl : out.full
          · simp [hfl] at h
          · simp only [hfl, Bool.false_eq_true, if_false] at h
            cases hD : drain B rest (out.push (Item.msgErr e)) st with
            | done o s e2 =>
              rw [hD] at h
              simp only [DrainOut.consEv, DrainOut.done.injEq] at h
              simp only [expectedDrainEvents, hB, ← h.2.2]
              exact congrArg _ (ih _ st o s e2 hD)
            | stopped o s e2 r2 => rw [hD] at h; simp [DrainOut.consEv] at h
            | blocked o s e2 r2 x => rw [hD] at h; simp [DrainOut.consEv] at h
            | crashed o s e2 r2 x => rw [hD] at h; simp [DrainOut.consEv] at h

/-- When the drain loop hits the Stop sentinel, its event log is the full
in-order drain log (truncated at the sentinel). -/
theorem drain_stopped_events (B : Behavior σ) :
    ∀ (msgs : List Msg) (out : Queue Item) (st : σ) (out2 : Queue Item) (st2 : σ)
      (evs : List Event) (rest : List Msg),
      drain B msgs out st = .stopped out2 st2 evs rest → evs = expectedDrainEvents B st msgs := by
  intro msgs
  induction msgs with
  | nil =>
    intro out st out2 st2 evs rest h
    simp [drain] at h
  | cons m rest0 ih =>
    intro out st out2 st2 evs rest h
    cases m with
    | stop =>
      simp only [drain, DrainOut.stopped.injEq] at h
      simp [expectedDrainEvents, ← h.2.2.1]
    | payload v =>
      cases hB : B.handleMsg st v with
      | ok st3 =>
        simp only [drain, hB] at h
        cases hD : drain B rest0 out st3 with
        | done o s e => rw [hD] at h; simp [DrainOut.consEv] at h
        | stopped o s e r2 =>
          rw [hD] at h
          simp only [DrainOut.consEv, DrainOut.stopped.injEq] at h
          simp only [expectedDrainEvents, hB, ← h.2.2.1]
          exact congrArg _ (ih out st3 o s e r2 hD)
        | blocked o s e r2 x => rw [hD] at h; simp [DrainOut.consEv] at h
        | crashed o s e r2 x => rw [hD] at h; simp [DrainOut.consEv] at h
      | error e =>
        simp only [drain, hB] at h
        by_cases hcl : out.closed
        · simp [hcl] at h
        · simp only [hcl, Bool.false_eq_true, if_false] at h
          by_cases hfl : out.full
          · simp [hfl] at h
          · simp only [hfl, Bool.false_eq_true, if_false] at h
            cases hD : drain B rest0 (out.push (Item.msgErr e)) st with
            | done o s e2 => rw [hD] at h; simp [DrainOut.consEv] at h
            | stopped o s e2 r2 =>
              rw [hD] at h
              simp only [DrainOut.consEv, DrainOut.stopped.injEq] at h
              simp only [expectedDrainEvents, hB, ← h.2.2.1]
              exact congrArg _ (ih _ st o s e2 r2 hD)
            | blocked o s e2 r2 x => rw [hD] at h; simp [DrainOut.consEv] at h
            | crashed o s e2 r2 x => rw [hD] at h; simp [DrainOut.consEv] at h

/-- The drain loop reports a shutdown only if the Stop sentinel was among
the drained messages. -/
theorem drain_stopped_mem (B : Behavior σ) :
    ∀ (msgs : List Msg) (out : Queue Item) (st : σ) (out2 : Queue Item) (st2 : σ)
      (evs : List Event) (rest : List Msg),
      drain B msgs out st = .stopped out2 st2 evs rest → Msg.stop ∈ msgs := by
  intro msgs
  induction msgs with
  | nil =>
    intro out st out2 st2 evs rest h
    simp [drain] at h
  | cons m rest0 ih =>
    intro out st out2 st2 evs rest h
    cases m with
    | stop => exact List.mem_cons_self _ _
    | payload v =>
      refine List.mem_cons_of_mem _ ?_
      cases hB : B.handleMsg st v with
      | ok st3 =>
        simp only [drain, hB] at h
        cases hD : drain B rest0 out st3 with
        | done o s e => rw [hD] at h; simp [DrainOut.consEv] at h
        | stopped o s e r2 => exact ih out st3 o s e r2 hD
        | blocked o s e r2 x => rw [hD] at h; simp [DrainOut.consEv] at h
        | crashed o s e r2 x => rw [hD] at h; simp [DrainOut.consEv] at h
      | error e =>
        simp only [drain, hB] at h
        by_cases hcl : out.closed
        · simp [hcl] at h
        · simp only [hcl, Bool.false_eq_true, if_false] at h
          by_cases hfl : out.full
          · simp [hfl] at h
          · simp only [hfl, Bool.false_eq_true, if_false] at h
            cases hD : drain B rest0 (out.push (Item.msgErr e)) st with
            | done o s e2 => rw [hD] at h; simp [DrainOut.consEv] at h
            | stopped o s e2 r2 => exact ih _ st o s e2 r2 hD
            | blocked o s e2 r2 x => rw [hD] at h; simp [DrainOut.consEv] at h
            | crashed o s e2 r2 x => rw [hD] at h; simp [DrainOut.consEv] at h

/-- No drain outcome's event log contains a production event. -/
theorem drain_no_produced (B : Behavior σ) :
    ∀ (msgs : List Msg) (out : Queue Item) (st : σ) (r : Except Err PyVal),
      Event.produced r ∉ (drain B msgs out st).evsOf := by
  intro msgs
  induction msgs with
  | nil => intro out st r; simp [drain, DrainOut.evsOf]
  | cons m rest ih =>
    intro out st r
    cases m with
    | stop => simp [drain, DrainOut.evsOf]
    | payload v =>
      cases hB : B.handleMsg st v with
      | ok st3 =>
        simp only [drain, hB]
        cases hD : drain B rest out st3 with
        | done o s e =>
          have := ih out st3 r
          rw [hD] at this
          simp only [DrainOut.consEv, DrainOut.evsOf, List.mem_cons] at this ⊢
          rintro (hc | hc)
          · exact Event.noConfusion hc
          · exact this hc
        | stopped o s e r2 =>
          have := ih out st3 r
          rw [hD] at this
          simp only [DrainOut.consEv, DrainOut.evsOf, List.mem_cons] at this ⊢
          rintro (hc | hc)
          · exact Event.noConfusion hc
          · exact this hc
        | blocked o s e r2 x =>
          have := ih out st3 r
          rw [hD] at this
          simp only [DrainOut.consEv, DrainOut.evsOf, List.mem_cons] at this ⊢
          rintro (hc | hc)
          · exact Event.noConfusion hc
          · exact this hc
        | crashed o s e r2 x =>
          have := ih out st3 r
          rw [hD] at this
          simp only [DrainOut.consEv, DrainOut.evsOf, List.mem_cons] at this ⊢
          rintro (hc | hc)
          · exact Event.noConfusion hc
          · exact this hc
      | error e =>
        simp only [drain, hB]
        by_cases hcl : out.closed
        · simp [hcl, DrainOut.evsOf]
        · simp only [hcl, Bool.false_eq_true, if_false]
          by_cases hfl : out.full
          · simp [hfl, DrainOut.evsOf]
          · simp only [hfl, Bool.false_eq_true, if_false]
            cases hD : drain B rest (out.push (Item.msgErr e)) st with
            | done o s e2 =>
              have := ih (out.push (Item.msgErr e)) st r
              rw [hD] at this
              simp only [DrainOut.consEv, DrainOut.evsOf, List.mem_cons] at this ⊢
              rintro (hc | hc)
              · exact Event.noConfusion hc
              · exact this hc
            | stopped o s e2 r2 =>
              have := ih (out.push (Item.msgErr e)) st r
              rw [hD] at this
              simp only [DrainOut.consEv, DrainOut.evsOf, List.mem_cons] at this ⊢
              rintro (hc | hc)
              · exact Event.noConfusion hc
              · exact this hc
            | blocked o s e2 r2 x =>
              have := ih (out.push (Item.msgErr e)) st r
              rw [hD] at this
              simp only [DrainOut.consEv, DrainOut.evsOf, List.mem_cons] at this ⊢
              rintro (hc | hc)
              · exact Event.noConfusion hc
              · exact this hc
            | crashed o s e2 r2 x =>
              have := ih (out.push (Item.msgErr e)) st r
              rw [hD] at this
              simp only [DrainOut.consEv, DrainOut.evsOf, List.mem_cons] at this ⊢
              rintro (hc | hc)
              · exact Event.noConfusion hc
              · exact this hc

/-- When the outbound queue is at capacity, the production section performs
nothing: no `production_step` invocation, queue unchanged. -/
theorem prodSection_full_skip (B : Behavior σ) (out : Queue Item) (st : σ)
    (h : out.full = true) : prodSection B out st = .pdone out st [] := by
  simp [prodSection, h]

/-- When the outbound queue is open and below capacity, the production
section invokes `production_step` exactly once and appends exactly one item
(the value, or the wrapped error in its place). -/
theorem prodSection_notfull_open (B : Behavior σ) (out : Queue Item) (st : σ)
    (hfl : out.full = false) (hcl : out.closed = false) :
    ∃ it st2 r, prodSection B out st = .pdone (out.push it) st2 [Event.produced r] ∧
      eventItem (Event.produced r) = some it := by
  cases hP : B.prodStep st with
  | ok p =>
    obtain ⟨st2, v⟩ := p
    exact ⟨Item.val v, st2, .ok v, by simp [prodSection, hfl, hcl, hP], rfl⟩
  | error e =>
    exact ⟨Item.stepErr e, st, .error e, by simp [prodSection, hfl, hcl, hP], rfl⟩

/-- When the outbound queue is closed but not at capacity (the post-Stop
situation), the production section still invokes `production_step`, fails to
append anything, and raises the closed-queue error out of the worker. -/
theorem prodSection_closed_notfull (B : Behavior σ) (out : Queue Item) (st : σ)
    (hfl : out.full = false) (hcl : out.closed = true) :
    ∃ st2 r, prodSection B out st = .pcrash out st2 [Event.produced r] Err.queueClosed := by
  cases hP : B.prodStep st with
  | ok p =>
    obtain ⟨st2, v⟩ := p
    exact ⟨st2, .ok v, by simp [prodSection, hfl, hcl, hP]⟩
  | error e =>
    exact ⟨st, .error e, by simp [prodSection, hfl, hcl, hP]⟩

/-- A completed production section appends exactly the items its events
contribute and preserves the queue's flags. -/
theorem prodSection_pdone_items (B : Behavior σ) (out : Queue Item) (st : σ)
    (out2 : Queue Item) (st2 : σ) (pevs : List Event)
    (h : prodSection B out st = .pdone out2 st2 pevs) :
    out2.items = out.items ++ pevs.filterMap eventItem ∧ out2.closed = out.closed ∧
      out2.maxsize = out.maxsize := by
  by_cases hfl : out.full
  · simp only [prodSection, hfl, if_true, ProdOut.pdone.injEq] at h
    simp [← h.1, ← h.2.2]
  · simp only [prodSection, hfl, Bool.false_eq_true, if_false] at h
    cases hP : B.prodStep st with
    | ok p =>
      obtain ⟨st3, v⟩ := p
      rw [hP] at h
      by_cases hcl : out.closed
      · simp [hcl] at h
      · simp only [hcl, Bool.false_eq_true, if_false, ProdOut.pdone.injEq] at h
        simp [← h.1, ← h.2.2, Queue.push, eventItem]
    | error e =>
      rw [hP] at h
      by_cases hcl : out.closed
      · simp [hcl] at h
      · simp only [hcl, Bool.false_eq_true, if_false, ProdOut.pdone.injEq] at h
        simp [← h.1, ← h.2.2, Queue.push, eventItem]

/-- An open outbound queue never makes the production section raise. -/
theorem prodSection_open_no_crash (B : Behavior σ) (out : Queue Item) (st : σ)
    (hcl : out.closed = false) :
    ∀ out2 st2 pevs e, prodSection B out st ≠ .pcrash out2 st2 pevs e := by
  intro out2 st2 pevs e h
  by_cases hfl : out.full
  · simp [prodSection, hfl] at h
  · simp only [prodSection, hfl, Bool.false_eq_true, if_false] at h
    cases hP : B.prodStep st with
    | ok p =>
      obtain ⟨st3, v⟩ := p
      rw [hP] at h
      simp [hcl] at h
    | error e2 =>
      rw [hP] at h
      simp [hcl] at h

/-- Every production-section event log is empty or a single production
event. -/
theorem prodSection_evs_shape (B : Behavior σ) (out : Queue Item) (st : σ) :
    (∀ out2 st2 pevs, prodSection B out st = .pdone out2 st2 pevs →
      pevs = [] ∨ ∃ r, pevs = [Event.produced r]) ∧
    (∀ out2 st2 pevs e, prodSection B out st = .pcrash out2 st2 pevs e →
      ∃ r, pevs = [Event.produced r]) := by
  constructor
  · intro out2 st2 pevs h
    by_cases hfl : out.full
    · simp only [prodSection, hfl, if_true, ProdOut.pdone.injEq] at h
      exact Or.inl h.2.2.symm
    · simp only [prodSection, hfl, Bool.false_eq_true, if_false] at h
      cases hP : B.prodStep st with
      | ok p =>
        obtain ⟨st3, v⟩ := p
        rw [hP] at h
        by_cases hcl : out.closed
        · simp [hcl] at h
        · simp only [hcl, Bool.false_eq_true, if_false, ProdOut.pdone.injEq] at h
          exact Or.inr ⟨.ok v, h.2.2.symm⟩
      | error e =>
        rw [hP] at h
        by_cases hcl : out.closed
        · simp [hcl] at h
        · simp only [hcl, Bool.false_eq_true, if_false, ProdOut.pdone.injEq] at h
          exact Or.inr ⟨.error e, h.2.2.symm⟩
  · intro out2 st2 pevs e h
    by_cases hfl : out.full
    · simp [prodSection, hfl] at h
    · simp only [prodSection, hfl, Bool.false_eq_true, if_false] at h
      cases hP : B.prodStep st with
      | ok p =>
        obtain ⟨st3, v⟩ := p
        rw [hP] at h
        by_cases hcl : out.closed
        · simp only [hcl, if_true, ProdOut.pcrash.injEq] at h
          exact ⟨.ok v, h.2.2.1.symm⟩
        · simp [hcl] at h
      | error e2 =>
        rw [hP] at h
        by_cases hcl : out.closed
        · simp only [hcl, if_true, ProdOut.pcrash.injEq] at h
          exact ⟨.error e2, h.2.2.1.symm⟩
        · simp [hcl] at h

/-- With an open outbound queue and no Stop sentinel pending, the drain loop
never raises and never shuts down, and when it completes it has appended
exactly the wrapped handler errors its events record, preserving the
queue's flags. -/
theorem drain_open_nostop (B : Behavior σ) :
    ∀ (msgs : List Msg) (out : Queue Item) (st : σ),
      out.closed = false → Msg.stop ∉ msgs →
      (∀ o s2 evs rest e, drain B msgs out st ≠ .crashed o s2 evs rest e) ∧
      (∀ o s2 evs rest, drain B msgs out st ≠ .stopped o s2 evs rest) ∧
      (∀ o s2 evs, drain B msgs out st = .done o s2 evs →
        o.items = out.items ++ evs.filterMap eventItem ∧ o.closed = false ∧
        o.maxsize = out.maxsize) := by
  intro msgs
  induction msgs with
  | nil =>
    intro out st hcl _
    refine ⟨fun o s2 evs rest e h => by simp [drain] at h,
      fun o s2 evs rest h => by simp [drain] at h, fun o s2 evs h => ?_⟩
    simp only [drain, DrainOut.done.injEq] at h
    simp [← h.1, ← h.2.2, hcl]
  | cons m rest0 ih =>
    intro out st hcl hns
    simp only [List.mem_cons, not_or] at hns
    cases m with
    | stop => exact absurd rfl hns.1
    | payload v =>
      cases hB : B.handleMsg st v with
      | ok st3 =>
        have ihr := ih out st3 hcl hns.2
        refine ⟨fun o s2 evs rest e h => ?_, fun o s2 evs rest h => ?_,
          fun o s2 evs h => ?_⟩
        · simp only [drain, hB] at h
          cases hD : drain B rest0 out st3 with
          | done o2 s3 e2 => rw [hD] at h; simp [DrainOut.consEv] at h
          | stopped o2 s3 e2 r2 => rw [hD] at h; simp [DrainOut.consEv] at h
          | blocked o2 s3 e2 r2 x => rw [hD] at h; simp [DrainOut.consEv] at h
          | crashed o2 s3 e2 r2 x => exact ihr.1 o2 s3 e2 r2 x hD
        · simp only [drain, hB] at h
          cases hD : drain B rest0 out st3 with
          | done o2 s3 e2 => rw [hD] at h; simp [DrainOut.consEv] at h
          | stopped o2 s3 e2 r2 => exact ihr.2.1 o2 s3 e2 r2 hD
          | blocked o2 s3 e2 r2 x => rw [hD] at h; simp [DrainOut.consEv] at h
          | crashed o2 s3 e2 r2 x => rw [hD] at h; simp [DrainOut.consEv] at h
        · simp only [drain, hB] at h
          cases hD : drain B rest0 out st3 with
          | done o2 s3 e2 =>
            rw [hD] at h
            simp only [DrainOut.consEv, DrainOut.done.injEq] at h
            obtain ⟨h1, h2, h3⟩ := h
            obtain ⟨g1, g2, g3⟩ := ihr.2.2 o2 s3 e2 hD
            subst h1 h2
            simp [← h3, eventItem, g1, g2, g3]
          | stopped o2 s3 e2 r2 => rw [hD] at h; simp [DrainOut.consEv] at h
          | blocked o2 s3 e2 r2 x => rw [hD] at h; simp [DrainOut.consEv] at h
          | crashed o2 s3 e2 r2 x => rw [hD] at h; simp [DrainOut.consEv] at h
      | error e =>
        by_cases hfl : out.full
        · refine ⟨fun o s2 evs rest e2 h => ?_, fun o s2 evs rest h => ?_,
            fun o s2 evs h => ?_⟩ <;>
            simp [drain, hB, hcl, hfl] at h
        · have hpr : (out.push (Item.msgErr e)).closed = false := hcl
          have ihr := ih (out.push (Item.msgErr e)) st hpr hns.2
          refine ⟨fun o s2 evs rest e2 h => ?_, fun o s2 evs rest h => ?_,
            fun o s2 evs h => ?_⟩
          · simp only [drain, hB, hcl, Bool.false_eq_true, if_false, hfl] at h
            cases hD : drain B rest0 (out.push (Item.msgErr e)) st with
            | done o2 s3 e2 => rw [hD] at h; simp [DrainOut.consEv] at h
            | stopped o2 s3 e2 r2 => rw [hD] at h; simp [DrainOut.consEv] at h
            | blocked o2 s3 e2 r2 x => rw [hD] at h; simp [DrainOut.consEv] at h
            | crashed o2 s3 e2 r2 x => exact ihr.1 o2 s3 e2 r2 x hD
          · simp only [drain, hB, hcl, Bool.false_eq_true, if_false, hfl] at h
            cases hD : drain B rest0 (out.push (Item.msgErr e)) st with
            | done o2 s3 e2 => rw [hD] at h; simp [DrainOut.consEv] at h
            | stopped o2 s3 e2 r2 => exact ihr.2.1 o2 s3 e2 r2 hD
            | blocked o2 s3 e2 r2 x => rw [hD] at h; simp [DrainOut.consEv] at h
            | crashed o2 s3 e2 r2 x => rw [hD] at h; simp [DrainOut.consEv] at h
          · simp only [drain, hB, hcl, Bool.false_eq_true, if_false, hfl] at h
            cases hD : drain B rest0 (out.push (Item.msgErr e)) st with
            | done o2 s3 e2 =>
              rw [hD] at h
              simp only [DrainOut.consEv, DrainOut.done.injEq] at h
              obtain ⟨h1, h2, h3⟩ := h
              obtain ⟨g1, g2, g3⟩ := ihr.2.2 o2 s3 e2 hD
              subst h1 h2
              simp only [← h3, List.filterMap_cons, eventItem, g2, g3]
              constructor
              · rw [g1]
                simp [Queue.push]
              · simp [Queue.push]
            | stopped o2 s3 e2 r2 => rw [hD] at h; simp [DrainOut.consEv] at h
            | blocked o2 s3 e2 r2 x => rw [hD] at h; simp [DrainOut.consEv] at h
            | crashed o2 s3 e2 r2 x => rw [hD] at h; simp [DrainOut.consEv] at h

/-- Prepending an event leaves a drain outcome's queue unchanged. -/
theorem DrainOut.outOf_consEv (e : Event) (d : DrainOut σ) :
    (DrainOut.consEv e d).outOf = d.outOf := by
  cases d <;> rfl

/-- The drain loop never grows a positively-bounded outbound queue past its
capacity, and never changes the capacity. -/
theorem drain_bound (B : Behavior σ) :
    ∀ (msgs : List Msg) (out : Queue Item) (st : σ),
      0 < out.maxsize → out.items.length ≤ out.maxsize →
      (drain B msgs out st).outOf.items.length ≤ out.maxsize ∧
      (drain B msgs out st).outOf.maxsize = out.maxsize := by
  intro msgs
  induction msgs with
  | nil => intro out st _ hlen; exact ⟨hlen, rfl⟩
  | cons m rest ih =>
    intro out st hpos hlen
    cases m with
    | stop => exact ⟨hlen, rfl⟩
    | payload v =>
      cases hB : B.handleMsg st v with
      | ok st3 =>
        simp only [drain, hB, DrainOut.outOf_consEv]
        exact ih out st3 hpos hlen
      | error e =>
        by_cases hcl : out.closed
        · simp only [drain, hB, hcl, if_true]
          exact ⟨hlen, rfl⟩
        · by_cases hfl : out.full
          · simp only [drain, hB, hcl, Bool.false_eq_true, if_false, hfl, if_true]
            exact ⟨hlen, rfl⟩
          · have hlt : out.items.length < out.maxsize := by
              by_contra hge
              push_neg at hge
              simp [Queue.full, hpos, hge] at hfl
            have hpl : (out.push (Item.msgErr e)).items.length ≤ out.maxsize := by
              simp [Queue.push]
              omega
            simp only [drain, hB, hcl, Bool.false_eq_true, if_false, hfl,
              DrainOut.outOf_consEv]
            exact ih (out.push (Item.msgErr e)) st hpos hpl

/-- The production section never grows a positively-bounded outbound queue
past its capacity, and never changes the capacity. -/
theorem prodSection_bound (B : Behavior σ) (out : Queue Item) (st : σ)
    (hpos : 0 < out.maxsize) (hlen : out.items.length ≤ out.maxsize) :
    (prodSection B out st).outOf.items.length ≤ out.maxsize ∧
    (prodSection B out st).outOf.maxsize = out.maxsize := by
  by_cases hfl : out.full
  · simp only [prodSection, hfl, if_true, ProdOut.outOf]
    exact ⟨hlen, trivial⟩
  · have hlt : out.items.length < out.maxsize := by
      by_contra hge
      push_neg at hge
      simp [Queue.full, hpos, hge] at hfl
    simp only [prodSection, hfl, Bool.false_eq_true, if_false]
    cases hP : B.prodStep st with
    | ok p =>
      obtain ⟨st2, v⟩ := p
      by_cases hcl : out.closed
      · simp only [hcl, if_true, ProdOut.outOf]
        exact ⟨hlen, trivial⟩
      · simp only [hcl, Bool.false_eq_true, if_false, ProdOut.outOf]
        constructor
        · simp [Queue.push]; omega
        · simp [Queue.push]
    | error e =>
      by_cases hcl : out.closed
      · simp only [hcl, if_true, ProdOut.outOf]
        exact ⟨hlen, trivial⟩
      · simp only [hcl, Bool.false_eq_true, if_false, ProdOut.outOf]
        constructor
        · simp [Queue.push]; omega
        · simp [Queue.push]

/-- One worker iteration never grows a positively-bounded outbound queue
past its capacity, whatever the outcome. -/
theorem runIter_bound (B : Behavior σ) (s : WState σ)
    (hpos : 0 < s.outbound.maxsize)
    (hlen : s.outbound.items.length ≤ s.outbound.maxsize) :
    (runIter B s).outQ.items.length ≤ s.outbound.maxsize ∧
    (runIter B s).outQ.maxsize = s.outbound.maxsize := by
  have hD := drain_bound B s.inbound.items s.outbound s.sub hpos hlen
  unfold runIter
  cases hd : drain B s.inbound.items s.outbound s.sub with
  | done o st evs =>
    rw [hd] at hD
    simp only [DrainOut.outOf] at hD
    have hP := prodSection_bound B o st (by rw [hD.2]; exact hpos) (by rw [hD.2]; exact hD.1)
    dsimp only
    cases hp : prodSection B o st with
    | pdone o2 st2 pevs =>
      rw [hp] at hP
      simp only [ProdOut.outOf] at hP
      simp only [IterOut.outQ]
      exact ⟨by rw [← hD.2]; exact hP.1, by rw [← hD.2]; exact hP.2⟩
    | pcrash o2 st2 pevs e =>
      rw [hp] at hP
      simp only [ProdOut.outOf] at hP
      simp only [IterOut.outQ]
      exact ⟨by rw [← hD.2]; exact hP.1, by rw [← hD.2]; exact hP.2⟩
  | stopped o st evs rest =>
    rw [hd] at hD
    simp only [DrainOut.outOf] at hD
    have hP := prodSection_bound B o st (by rw [hD.2]; exact hpos) (by rw [hD.2]; exact hD.1)
    dsimp only
    cases hp : prodSection B o st with
    | pdone o2 st2 pevs =>
      rw [hp] at hP
      simp only [ProdOut.outOf] at hP
      simp only [IterOut.outQ]
      exact ⟨by rw [← hD.2]; exact hP.1, by rw [← hD.2]; exact hP.2⟩
    | pcrash o2 st2 pevs e =>
      rw [hp] at hP
      simp only [ProdOut.outOf] at hP
      simp only [IterOut.outQ]
      exact ⟨by rw [← hD.2]; exact hP.1, by rw [← hD.2]; exact hP.2⟩
  | blocked o st evs rest e =>
    rw [hd] at hD
    simp only [DrainOut.outOf] at hD
    simp only [IterOut.outQ]
    exact ⟨hD.1, hD.2⟩
  | crashed o st evs rest e =>
    rw [hd] at hD
    simp only [DrainOut.outOf] at hD
    simp only [IterOut.outQ]
    exact ⟨hD.1, hD.2⟩

/-- With an open outbound queue and no Stop sentinel pending, a worker
iteration never raises, and a completed iteration appends to the outbound
queue exactly the items its events contribute — one wrapped
`MessageHandlingError` per raising handler, one value or wrapped
`ProductionStepError` per production attempt — leaving the queue open and
the running flag untouched. -/
theorem runIter_open_nostop (B : Behavior σ) (s : WState σ)
    (hcl : s.outbound.closed = false) (hns : Msg.stop ∉ s.inbound.items) :
    (∀ s2 evs e, runIter B s ≠ .crash s2 evs e) ∧
    (∀ s2 evs, runIter B s = .next s2 evs →
      s2.outbound.items = s.outbound.items ++ evs.filterMap eventItem ∧
      s2.outbound.closed = false ∧ s2.running = s.running) := by
  have hD := drain_open_nostop B s.inbound.items s.outbound s.sub hcl hns
  constructor
  · intro s2 evs e h
    unfold runIter at h
    cases hd : drain B s.inbound.items s.outbound s.sub with
    | done o st evs2 =>
      rw [hd] at h
      dsimp only at h
      cases hp : prodSection B o st with
      | pdone o2 st2 pevs => rw [hp] at h; simp at h
      | pcrash o2 st2 pevs e2 =>
        exact prodSection_open_no_crash B o st (hD.2.2 o st evs2 hd).2.1 o2 st2 pevs e2 hp
    | stopped o st evs2 rest => exact hD.2.1 o st evs2 rest hd
    | blocked o st evs2 rest e2 => rw [hd] at h; simp at h
    | crashed o st evs2 rest e2 => exact hD.1 o st evs2 rest e2 hd
  · intro s2 evs h
    unfold runIter at h
    cases hd : drain B s.inbound.items s.outbound s.sub with
    | done o st evs2 =>
      rw [hd] at h
      dsimp only at h
      cases hp : prodSection B o st with
      | pdone o2 st2 pevs =>
        rw [hp] at h
        dsimp only at h
        simp only [IterOut.next.injEq] at h
        obtain ⟨hs2, hevs⟩ := h
        obtain ⟨g1, g2, g3⟩ := hD.2.2 o st evs2 hd
        obtain ⟨p1, p2, p3⟩ := prodSection_pdone_items B o st o2 st2 pevs hp
        subst hs2
        refine ⟨?_, by rw [p2]; exact g2, rfl⟩
        rw [← hevs, p1, g1, List.filterMap_append, List.append_assoc]
      | pcrash o2 st2 pevs e2 => rw [hp] at h; simp at h
    | stopped o st evs2 rest => exact absurd hd (hD.2.1 o st evs2 rest)
    | blocked o st evs2 rest e2 => rw [hd] at h; simp at h
    | crashed o st evs2 rest e2 => exact absurd hd (hD.1 o st evs2 rest e2)

/-- An idle iteration (empty inbound, open unbounded outbound) invokes
`production_step` exactly once and appends exactly one item. -/
theorem runIter_idle (B : Behavior σ) (s : WState σ) (hin : s.inbound.items = [])
    (hcl : s.outbound.closed = false) (hms : s.outbound.maxsize = 0) :
    ∃ it st2 r, runIter B s =
      .next ⟨⟨[], s.inbound.maxsize, s.inbound.closed⟩, s.outbound.push it, s.running, st2⟩
        [Event.produced r] ∧ eventItem (Event.produced r) = some it := by
  have hfl : s.outbound.full = false := by simp [Queue.full, hms]
  obtain ⟨it, st2, r, hp, hi⟩ := prodSection_notfull_open B s.outbound s.sub hfl hcl
  refine ⟨it, st2, r, ?_, hi⟩
  unfold runIter
  rw [hin]
  simp [drain, hp]

/-- With no inbound traffic and an open unbounded outbound queue, `n` loop
iterations perform exactly `n` production attempts and append exactly `n`
outbound items — one per attempt, value or wrapped error alike. -/
theorem runLoop_idle (B : Behavior σ) :
    ∀ (n : Nat) (s : WState σ), s.inbound.items = [] → s.outbound.closed = false →
      s.outbound.maxsize = 0 → s.running = true →
      ∃ s2 evs, runLoop B n s = .fuelOut s2 evs ∧ evs.length = n ∧
        (∀ e ∈ evs, Event.isProduced e = true) ∧
        s2.outbound.items = s.outbound.items ++ evs.filterMap eventItem ∧
        (evs.filterMap eventItem).length = n := by
  intro n
  induction n with
  | zero =>
    intro s _ _ _ _
    exact ⟨s, [], rfl, rfl, by simp, by simp, rfl⟩
  | succ n ih =>
    intro s h1 h2 h3 h4
    obtain ⟨it, st2, r, hIter, hItem⟩ := runIter_idle B s h1 h2 h3
    obtain ⟨s3, evs, hL, hlen, hprod, hitems, hflen⟩ :=
      ih ⟨⟨[], s.inbound.maxsize, s.inbound.closed⟩, s.outbound.push it, s.running, st2⟩
        rfl (by simpa [Queue.push] using h2) (by simpa [Queue.push] using h3) h4
    refine ⟨s3, Event.produced r :: evs, ?_, by simp [hlen], ?_, ?_, ?_⟩
    · show runLoop B (Nat.succ n) s = _
      rw [h4] at hL
      simp only [runLoop, h4, if_true, hIter, hL, RunResult.consEvs, List.singleton_append]
    · intro e he
      rcases List.mem_cons.mp he with he | he
      · subst he; rfl
      · exact hprod e he
    · rw [hitems]
      simp [Queue.push, hItem]
    · simp [hItem, hflen]

/-- Every iteration's event log is either production-free, or the full
drain log followed by one final production event. -/
theorem runIter_evs_eq (B : Behavior σ) (s : WState σ) :
    (∀ r, Event.produced r ∉ (runIter B s).evs) ∨
    (∃ r, (runIter B s).evs =
      expectedDrainEvents B s.sub s.inbound.items ++ [Event.produced r]) := by
  unfold runIter
  cases hd : drain B s.inbound.items s.outbound s.sub with
  | done o st evs2 =>
    have hnp := drain_no_produced B s.inbound.items s.outbound s.sub
    rw [hd] at hnp
    simp only [DrainOut.evsOf] at hnp
    have hde := drain_done_events B s.inbound.items s.outbound s.sub o st evs2 hd
    dsimp only
    cases hp : prodSection B o st with
    | pdone o2 st2 pevs =>
      rcases (prodSection_evs_shape B o st).1 o2 st2 pevs hp with hsh | ⟨r, hsh⟩
      · subst hsh
        left
        intro r hmem
        simp only [IterOut.evs, List.append_nil] at hmem
        exact hnp r hmem
      · subst hsh
        right
        refine ⟨r, ?_⟩
        simp [IterOut.evs, hde]
    | pcrash o2 st2 pevs e =>
      obtain ⟨r, hsh⟩ := (prodSection_evs_shape B o st).2 o2 st2 pevs e hp
      subst hsh
      right
      refine ⟨r, ?_⟩
      simp [IterOut.evs, hde]
  | stopped o st evs2 rest =>
    have hnp := drain_no_produced B s.inbound.items s.outbound s.sub
    rw [hd] at hnp
    simp only [DrainOut.evsOf] at hnp
    have hde := drain_stopped_events B s.inbound.items s.outbound s.sub o st evs2 rest hd
    dsimp only
    cases hp : prodSection B o st with
    | pdone o2 st2 pevs =>
      rcases (prodSection_evs_shape B o st).1 o2 st2 pevs hp with hsh | ⟨r, hsh⟩
      · subst hsh
        left
        intro r hmem
        simp only [IterOut.evs, List.append_nil] at hmem
        exact hnp r hmem
      · subst hsh
        right
        refine ⟨r, ?_⟩
        simp [IterOut.evs, hde]
    | pcrash o2 st2 pevs e =>
      obtain ⟨r, hsh⟩ := (prodSection_evs_shape B o st).2 o2 st2 pevs e hp
      subst hsh
      right
      refine ⟨r, ?_⟩
      simp [IterOut.evs, hde]
  | blocked o st evs2 rest e =>
    have hnp := drain_no_produced B s.inbound.items s.outbound s.sub
    rw [hd] at hnp
    simp only [DrainOut.evsOf] at hnp
    left
    intro r hmem
    dsimp only at hmem
    simp only [IterOut.evs] at hmem
    exact hnp r hmem
  | crashed o st evs2 rest e =>
    have hnp := drain_no_produced B s.inbound.items s.outbound s.sub
    rw [hd] at hnp
    simp only [DrainOut.evsOf] at hnp
    left
    intro r hmem
    dsimp only at hmem
    simp only [IterOut.evs] at hmem
    exact hnp r hmem

/-! Claim theorems. -/

/-- C1 counterexample: `stop()` on a never-started producer does not raise
`NotStartedException` (or anything else); it returns normally and leaves the
producer unchanged, because `Producer.stop` only acts when `_did_start`. -/
theorem c1_stop_before_start_no_raise :
    stop (producerInit none) = (producerInit none, none) ∧
    (stop (producerInit none)).2 ≠ some Err.notStarted :=
  ⟨rfl, fun h => Option.noConfusion h⟩

/-- C1 (amended): a second `start()` raises `AlreadyStartedError` and leaves
the state unchanged (the check precedes any mutation, so this holds whether
or not the first start succeeded); the first `start()` on a fresh producer
succeeds; `get()` before any `start()` raises `NotStartedException`; but
`stop()` before any `start()` is a silent no-op that raises nothing. -/
theorem c1_lifecycle_protocol (p : PState) (bs : Option Nat) :
    (p.didStart = true → start p = (p, some Err.alreadyStarted)) ∧
    ((start (producerInit bs)).2 = none ∧
      start (start (producerInit bs)).1 = ((start (producerInit bs)).1, some Err.alreadyStarted)) ∧
    (p.didStart = false → get p = GetResult.notStarted) ∧
    (p.didStart = false → stop p = (p, none)) := by
  refine ⟨fun h => by simp [start, h], ⟨?_, ?_⟩, fun h => by simp [get, h],
    fun h => by simp [stop, h]⟩
  · simp [start, producerInit]
  · simp [start, producerInit]

/-- C1 witness: the amended claim evaluated at concrete producers. -/
theorem c1_lifecycle_protocol_witness :
    start pStarted = (pStarted, some Err.alreadyStarted) ∧
    get (producerInit (some 5)) = GetResult.notStarted ∧
    stop (producerInit (some 5)) = (producerInit (some 5), none) :=
  ⟨(c1_lifecycle_protocol pStarted none).1 rfl,
   (c1_lifecycle_protocol (producerInit (some 5)) none).2.2.1 rfl,
   (c1_lifecycle_protocol (producerInit (some 5)) none).2.2.2 rfl⟩

/-- C2: for a started producer, `get` has exactly three outcomes — it times
out exactly when the outbound buffer is empty, returns a payload exactly
when the next item is a value, and raises the dequeued item itself (the
wrapped error still carrying its cause) exactly when the next item is a
`ProductionError`; it can never report not-started.  Before `start()`, `get`
always fails with `NotStartedException` and never returns a default. -/
theorem c2_get_outcomes (p : PState) :
    (p.didStart = true →
      ((get p = GetResult.timedOut ↔ p.outbound.items = []) ∧
       (∀ v rest, get p = GetResult.value v rest ↔ p.outbound.items = Item.val v :: rest) ∧
       (∀ it rest, get p = GetResult.raisedError it rest ↔
          (p.outbound.items = it :: rest ∧ it.isProductionError = true)) ∧
       get p ≠ GetResult.notStarted)) ∧
    (p.didStart = false → get p = GetResult.notStarted) := by
  constructor
  · intro h
    refine ⟨?_, fun v rest => ?_, fun it rest => ?_, ?_⟩
    · cases hx : p.outbound.items with
      | nil => simp [get, h, hx]
      | cons hd tl => cases hd <;> simp [get, h, hx]
    · cases hx : p.outbound.items with
      | nil => simp [get, h, hx]
      | cons hd tl => cases hd <;> simp [get, h, hx]
    · cases hx : p.outbound.items with
      | nil => simp [get, h, hx, Item.isProductionError]
      | cons hd tl => cases hd <;> cases it <;> simp [get, h, hx, Item.isProductionError]
    · cases hx : p.outbound.items with
      | nil => simp [get, h, hx]
      | cons hd tl => cases hd <;> simp [get, h, hx]
  · intro h
    simp [get, h]

/-- C2 witness: the three started outcomes and the unstarted failure at
concrete producers. -/
theorem c2_get_outcomes_witness :
    get pReady = GetResult.value (PyVal.int 5)
      [Item.stepErr (Err.user (PyVal.str "e"))] ∧
    get { pReady with outbound := ⟨[], 2, false⟩ } = GetResult.timedOut ∧
    get { pReady with outbound := ⟨[Item.stepErr (Err.user (PyVal.str "e"))], 2, false⟩ } =
      GetResult.raisedError (Item.stepErr (Err.user (PyVal.str "e"))) [] ∧
    get (producerInit none) = GetResult.notStarted :=
  ⟨(((c2_get_outcomes pReady).1 rfl).2.1 (PyVal.int 5)
      [Item.stepErr (Err.user (PyVal.str "e"))]).mpr rfl,
   ((c2_get_outcomes { pReady with outbound := ⟨[], 2, false⟩ }).1 rfl).1.mpr rfl,
   (((c2_get_outcomes { pReady with outbound :=
        ⟨[Item.stepErr (Err.user (PyVal.str "e"))], 2, false⟩ }).1 rfl).2.2.1
      (Item.stepErr (Err.user (PyVal.str "e"))) []).mpr ⟨rfl, rfl⟩,
   (c2_get_outcomes (producerInit none)).2 rfl⟩

/-- C8 counterexample: a production callable returning the three-element
tuple `(1, 2, 3)` is not a two-element pair, yet `production_step` takes the
pair branch (`len(result) > 1`): the stored state becomes `1` and the result
is `2` — not the returned value itself, and the state does progress. -/
theorem c8_triple_tuple_counterexample :
    injProductionStep cexTripleInj =
      .ok ({ cexTripleInj with state := PyVal.int 1 }, PyVal.int 2) ∧
    isTupleLenGtOne (PyVal.tuple [PyVal.int 1, PyVal.int 2, PyVal.int 3]) = true ∧
    PyVal.tuple [PyVal.int 1, PyVal.int 2, PyVal.int 3] ≠ PyVal.int 2 ∧
    ({ cexTripleInj with state := PyVal.int 1 }).state ≠ cexTripleInj.state := by
  refine ⟨rfl, rfl, by simp, by simp [cexTripleInj]⟩

/-- C8 (amended): with no production callable, `production_step` returns
`None`; with one, the state is snapshotted and the callable invoked on the
snapshot; if the returned value is a tuple with **at least two** elements
(`len(result) > 1`, not exactly two), the first element becomes the new
stored state and the second is the production result (further elements are
discarded); otherwise the returned value itself is the result and the
stored state does not progress. -/
theorem c8_injectable_production_step (p : Injectable) (f : PyVal → Except Err PyVal)
    (fz : PyVal) :
    (p.production = none → injProductionStep p = .ok (p, PyVal.none)) ∧
    (p.production = some f → freezeState p.state = .ok fz →
      ((∀ a b rest2, f fz = .ok (PyVal.tuple (a :: b :: rest2)) →
          injProductionStep p = .ok ({ p with state := a }, b)) ∧
       (∀ r, f fz = .ok r → isTupleLenGtOne r = false → injProductionStep p = .ok (p, r)) ∧
       (∀ e, f fz = .error e → injProductionStep p = .error e))) := by
  constructor
  · intro h
    simp [injProductionStep, h]
  · intro hp hf
    refine ⟨fun a b rest2 hr => ?_, fun r hr hnt => ?_, fun e he => ?_⟩
    · simp [injProductionStep, hp, hf, hr]
    · cases r with
      | tuple l =>
        cases l with
        | nil => simp [injProductionStep, hp, hf, hr]
        | cons a t =>
          cases t with
          | nil => simp [injProductionStep, hp, hf, hr]
          | cons b t2 => simp [isTupleLenGtOne] at hnt
      | none => simp [injProductionStep, hp, hf, hr]
      | int n => simp [injProductionStep, hp, hf, hr]
      | str s2 => simp [injProductionStep, hp, hf, hr]
      | dict es => simp [injProductionStep, hp, hf, hr]
    · simp [injProductionStep, hp, hf, he]

/-- C8 witness: the pair branch on a genuine `(new_state, result)` pair, and
the no-callable branch, at concrete injectables. -/
theorem c8_injectable_production_step_witness :
    injProductionStep wInjPair = .ok ({ wInjPair with state := PyVal.dict [] }, PyVal.int 9) ∧
    injProductionStep { wFailInj with handler := none } =
      .ok ({ wFailInj with handler := none }, PyVal.none) :=
  ⟨(((c8_injectable_production_step wInjPair
        (fun st => .ok (PyVal.tuple [st, PyVal.int 9])) (PyVal.dict [])).2 rfl rfl).1
      (PyVal.dict []) (PyVal.int 9) [] rfl),
   ((c8_injectable_production_step { wFailInj with handler := none }
        (fun _ => .ok PyVal.none) PyVal.none).1 rfl)⟩

/-- C9: the injectable core passes each callable a shallow copy of the
current state (for duplicate-free keys the copy has exactly the same
entries), and replaces the stored state only with the callable's returned
value after the call completes: a raising handler or production callable
propagates its exception to the worker loop with the stored state
unchanged (the error is wrapped and appended, and the same `Injectable`
value flows on), while a successful handler's return value becomes the new
stored state. -/
theorem c9_snapshot_state_discipline (p : Injectable) (v : PyVal) (out : Queue Item) :
    (∀ es : List (String × PyVal), (es.map Prod.fst).Nodup →
       freezeState (PyVal.dict es) = .ok (PyVal.dict es)) ∧
    (∀ h fz e, p.handler = some h → freezeState p.state = .ok fz → h v fz = .error e →
       injHandleMessage p v = .error e) ∧
    (∀ h fz st2, p.handler = some h → freezeState p.state = .ok fz → h v fz = .ok st2 →
       injHandleMessage p v = .ok { p with state := st2 }) ∧
    (∀ e, injHandleMessage p v = .error e → out.closed = false → out.full = false →
       drain injBehavior [Msg.payload v] out p =
         .done (out.push (Item.msgErr e)) p [Event.handled v (some e)]) ∧
    (∀ p2, injHandleMessage p v = .ok p2 →
       drain injBehavior [Msg.payload v] out p = .done out p2 [Event.handled v none]) ∧
    (∀ e, injProductionStep p = .error e → out.closed = false → out.full = false →
       prodSection injBehavior out p =
         .pdone (out.push (Item.stepErr e)) p [Event.produced (.error e)]) := by
  refine ⟨fun es h => freezeState_copy es h, ?_, ?_, ?_, ?_, ?_⟩
  · intro h fz e hh hf he
    simp [injHandleMessage, hh, hf, he]
  · intro h fz st2 hh hf hs
    simp [injHandleMessage, hh, hf, hs]
  · intro e he hcl hfl
    simp [drain, injBehavior, he, hcl, hfl, DrainOut.consEv]
  · intro p2 hp2
    simp [drain, injBehavior, hp2, DrainOut.consEv]
  · intro e he hcl hfl
    have hnf : out.full = false := hfl
    simp [prodSection, injBehavior, he, hcl, hnf]

/-- C9 witness: a raising handler at a concrete injectable — the snapshot
equals the stored dict, the exception propagates, the worker wraps it and
the stored state flows on unchanged. -/
theorem c9_snapshot_state_discipline_witness :
    freezeState (PyVal.dict [("i", PyVal.int 0)]) = .ok (PyVal.dict [("i", PyVal.int 0)]) ∧
    injHandleMessage wFailInj (PyVal.int 3) = .error (.user (PyVal.str "boom")) ∧
    drain injBehavior [Msg.payload (PyVal.int 3)] ⟨[], 0, false⟩ wFailInj =
      .done (Queue.push ⟨[], 0, false⟩ (Item.msgErr (.user (PyVal.str "boom")))) wFailInj
        [Event.handled (PyVal.int 3) (some (.user (PyVal.str "boom")))] :=
  ⟨(c9_snapshot_state_discipline wFailInj (PyVal.int 3) ⟨[], 0, false⟩).1
      [("i", PyVal.int 0)] (by simp),
   (c9_snapshot_state_discipline wFailInj (PyVal.int 3) ⟨[], 0, false⟩).2.1
      (fun _ _ => .error (.user (PyVal.str "boom"))) (PyVal.dict [("i", PyVal.int 0)])
      (.user (PyVal.str "boom")) rfl rfl rfl,
   (c9_snapshot_state_discipline wFailInj (PyVal.int 3) ⟨[], 0, false⟩).2.2.2.1
      (.user (PyVal.str "boom")) rfl rfl rfl⟩

/-- C10: an `InjectableProducer` built without an explicit buffer size gets
a bounded outbound capacity of 100 (its default is the integer 100), so the
queue reports full exactly at 100 buffered items; the core `Producer`'s
omitted buffer size means an unbounded outbound queue that is never full;
and an unbounded injectable requires passing `None` explicitly. -/
theorem c10_default_buffer_capacity (produce : Option (PyVal → Except Err PyVal))
    (handle : Option (PyVal → PyVal → Except Err PyVal)) (st : PyVal) :
    ((injectableInitDefault produce handle st).2.outbound.maxsize = 100) ∧
    (∀ xs : List Item,
      Queue.full ⟨xs, (injectableInitDefault produce handle st).2.outbound.maxsize, false⟩ = true
        ↔ 100 ≤ xs.length) ∧
    (producerInitDefault.outbound.maxsize = 0) ∧
    (∀ xs : List Item,
      Queue.full ⟨xs, producerInitDefault.outbound.maxsize, false⟩ = false) ∧
    ((injectableInit produce handle st none).2.outbound.maxsize = 0) ∧
    (∀ xs : List Item,
      Queue.full ⟨xs, (injectableInit produce handle st none).2.outbound.maxsize, false⟩ = false) := by
  refine ⟨rfl, fun xs => ?_, rfl, fun xs => ?_, rfl, fun xs => ?_⟩ <;>
    simp [Queue.full, injectableInitDefault, injectableInit, producerInit, producerInitDefault]

/-- C3 counterexample: in the iteration that drains the Stop sentinel, a
raising `production_step` is caught and wrapped, but the wrapping put hits
the already-closed outbound queue: the `ProductionStepError` is never
appended (the queue stays empty) and the worker terminates with the
uncaught closed-queue error — so not every production-step exception is
appended, and a subclass-raised exception is followed by worker death. -/
theorem c3_post_stop_error_lost :
    runIter bRaise sStopEmpty =
      .crash ⟨⟨[], 0, true⟩, ⟨[], 0, true⟩, false, ()⟩
        [Event.stopDrained, Event.produced (.error (.user (PyVal.str "boom")))]
        Err.queueClosed ∧
    (runIter bRaise sStopEmpty).outQ.items = [] :=
  ⟨rfl, rfl⟩

/-- C3 (amended): as long as the Stop sentinel has not been drained (the
outbound queue is open), the worker never terminates on an exception: every
exception raised inside `handle_message` is caught, wrapped as
`MessageHandlingError` carrying the original cause, and appended; every
exception raised inside `production_step` is caught, wrapped as
`ProductionStepError` carrying the cause, and appended in place of the
result; over an idle run, `n` production attempts append exactly `n`
outbound items.  (Once Stop is drained in the same iteration, the wrapped
production error can no longer be appended to the closed channel and the
worker dies with an uncaught error.) -/
theorem c3_worker_error_containment (B : Behavior σ) (s : WState σ) :
    (s.outbound.closed = false → Msg.stop ∉ s.inbound.items →
      ((∀ s2 evs e, runIter B s ≠ IterOut.crash s2 evs e) ∧
       (∀ s2 evs, runIter B s = IterOut.next s2 evs →
         s2.outbound.items = s.outbound.items ++ evs.filterMap eventItem ∧
         s2.outbound.closed = false ∧ s2.running = s.running))) ∧
    (∀ n, s.inbound.items = [] → s.outbound.closed = false → s.outbound.maxsize = 0 →
      s.running = true →
      ∃ s2 evs, runLoop B n s = RunResult.fuelOut s2 evs ∧ evs.length = n ∧
        (∀ e ∈ evs, Event.isProduced e = true) ∧
        s2.outbound.items = s.outbound.items ++ evs.filterMap eventItem ∧
        (evs.filterMap eventItem).length = n) :=
  ⟨fun hcl hns => runIter_open_nostop B s hcl hns,
   fun n h1 h2 h3 h4 => runLoop_idle B n s h1 h2 h3 h4⟩

/-- C3 witness: a raising handler in a running, open-queue iteration — the
wrapped `MessageHandlingError` carrying the cause is appended and the
worker continues. -/
theorem c3_worker_error_containment_witness :
    sOneMsgNext.outbound.items = sOneMsg.outbound.items ++
      List.filterMap eventItem
        [Event.handled (PyVal.int 1) (some (Err.user (PyVal.str "hboom")))] ∧
    sOneMsgNext.outbound.closed = false ∧ sOneMsgNext.running = sOneMsg.running :=
  ((c3_worker_error_containment bRaise sOneMsg).1 rfl (by simp [sOneMsg])).2 sOneMsgNext
    [Event.handled (PyVal.int 1) (some (Err.user (PyVal.str "hboom")))] rfl

/-- C4: a positively-bounded outbound queue never exceeds its capacity
across a worker iteration (whatever the outcome) and keeps its capacity;
production is skipped exactly while the queue is full and performs exactly
one append as soon as it is below capacity and open; and fullness depends
only on the number of buffered items, never on whether they are values or
errors — an error occupies a slot exactly like a data item. -/
theorem c4_capacity_invariant (B : Behavior σ) (s : WState σ) (N : Nat)
    (hms : s.outbound.maxsize = N) (hpos : 0 < N)
    (hlen : s.outbound.items.length ≤ N) :
    ((runIter B s).outQ.items.length ≤ N ∧ (runIter B s).outQ.maxsize = N) ∧
    (∀ (out : Queue Item) (st : σ), out.full = true →
      prodSection B out st = ProdOut.pdone out st []) ∧
    (∀ (out : Queue Item) (st : σ), out.full = false → out.closed = false →
      ∃ it st2 r, prodSection B out st = ProdOut.pdone (out.push it) st2 [Event.produced r]) ∧
    (∀ (ms : Nat) (xs ys : List Item), xs.length = ys.length →
      Queue.full ⟨xs, ms, false⟩ = Queue.full ⟨ys, ms, false⟩) := by
  refine ⟨?_, fun out st h => prodSection_full_skip B out st h, fun out st h1 h2 => ?_,
    fun ms xs ys h => by simp [Queue.full, h]⟩
  · have hb := runIter_bound B s (by rw [hms]; exact hpos) (by rw [hms]; exact hlen)
    rw [hms] at hb
    exact hb
  · obtain ⟨it, st2, r, hp, _⟩ := prodSection_notfull_open B out st h1 h2
    exact ⟨it, st2, r, hp⟩

/-- C4 witness: the capacity bound evaluated on a capacity-1 producer that
handles one message and produces once. -/
theorem c4_capacity_invariant_witness :
    (runIter bCount sOneMsg).outQ.items.length ≤ 1 ∧
    (runIter bCount sOneMsg).outQ.maxsize = 1 :=
  (c4_capacity_invariant bCount sOneMsg 1 rfl (by decide) (by decide)).1

/-- C5 counterexample: draining the Stop sentinel with a non-full outbound
queue does **not** skip the current iteration's production attempt and does
not exit at the next outer-loop check: `production_step` is invoked once
more (the event log records it), nothing is appended, and the worker
terminates with the uncaught closed-queue error. -/
theorem c5_post_stop_production_not_skipped :
    runIter bCount sStopEmpty =
      .crash ⟨⟨[], 0, true⟩, ⟨[], 0, true⟩, false, ()⟩
        [Event.stopDrained, Event.produced (.ok (PyVal.int 7))] Err.queueClosed ∧
    List.filter Event.isProduced (runIter bCount sStopEmpty).evs =
      [Event.produced (.ok (PyVal.int 7))] ∧
    (runIter bCount sStopEmpty).outQ.items = [] :=
  ⟨rfl, rfl, rfl⟩

/-- C5 (amended): when the worker dequeues the Stop sentinel it closes both
channels, clears the running flag, and exits the drain sub-loop, and no
production result is ever appended afterwards; but the production attempt
itself is skipped only when the outbound queue is full — in that case the
loop exits normally at the next outer-loop check — whereas with a non-full
queue `production_step` is still invoked once more, its result cannot be
appended to the closed channel, and the worker terminates with the
uncaught closed-queue error instead of reaching the outer-loop check. -/
theorem c5_stop_shutdown (B : Behavior σ) (s : WState σ) (rest : List Msg)
    (hin : s.inbound.items = Msg.stop :: rest) (hcl : s.outbound.closed = false)
    (hrun : s.running = true) :
    (s.outbound.full = true →
      runIter B s =
        .next ⟨⟨rest, s.inbound.maxsize, true⟩, s.outbound.close, false, s.sub⟩
          [Event.stopDrained] ∧
      runLoop B 2 s =
        .finished ⟨⟨rest, s.inbound.maxsize, true⟩, s.outbound.close, false, s.sub⟩
          [Event.stopDrained]) ∧
    (s.outbound.full = false →
      ∃ st2 r, runIter B s =
        .crash ⟨⟨rest, s.inbound.maxsize, true⟩, s.outbound.close, false, st2⟩
          [Event.stopDrained, Event.produced r] Err.queueClosed ∧
        (runIter B s).outQ.items = s.outbound.items) := by
  constructor
  · intro hfull
    have hcf : (Queue.close s.outbound).full = true := by
      simpa [Queue.close, Queue.full] using hfull
    have hiter : runIter B s =
        .next ⟨⟨rest, s.inbound.maxsize, true⟩, s.outbound.close, false, s.sub⟩
          [Event.stopDrained] := by
      unfold runIter
      rw [hin]
      simp [drain, prodSection_full_skip B (Queue.close s.outbound) s.sub hcf]
    refine ⟨hiter, ?_⟩
    show runLoop B (Nat.succ 1) s = _
    simp only [runLoop, hrun, if_true, hiter, RunResult.consEvs]
    rfl
  · intro hfull
    have hcf : (Queue.close s.outbound).full = false := by
      simpa [Queue.close, Queue.full] using hfull
    obtain ⟨st2, r, hp⟩ := prodSection_closed_notfull B (Queue.close s.outbound) s.sub hcf rfl
    have hiter : runIter B s =
        .crash ⟨⟨rest, s.inbound.maxsize, true⟩, s.outbound.close, false, st2⟩
          [Event.stopDrained, Event.produced r] Err.queueClosed := by
      unfold runIter
      rw [hin]
      simp [drain, hp]
    refine ⟨st2, r, hiter, ?_⟩
    rw [hiter]
    simp [IterOut.outQ, Queue.close]

/-- C5 witness: the full-queue branch — Stop drained, channels closed,
running flag cleared, production skipped, loop finished at the next
outer-loop check. -/
theorem c5_stop_shutdown_witness :
    runIter bCount sStopFull =
      .next ⟨⟨[], 0, true⟩, Queue.close ⟨[Item.val (PyVal.int 0)], 1, false⟩, false, ()⟩
        [Event.stopDrained] ∧
    runLoop bCount 2 sStopFull =
      .finished ⟨⟨[], 0, true⟩, Queue.close ⟨[Item.val (PyVal.int 0)], 1, false⟩, false, ()⟩
        [Event.stopDrained] :=
  (c5_stop_shutdown bCount sStopFull [] rfl rfl rfl).1 rfl

/-- C6: inbound draining has strict priority over production within every
iteration: whenever the event log contains a `production_step` invocation,
the log is exactly the full in-order drain of all pending inbound messages
followed by that single production attempt, last — so production never
happens while inbound messages remain pending. -/
theorem c6_strict_drain_priority (B : Behavior σ) (s : WState σ) :
    producedPriority B s (runIter B s).evs := by
  intro r hr
  rcases runIter_evs_eq B s with hnp | ⟨r2, hE⟩
  · exact absurd hr (hnp r)
  · rw [hE] at hr ⊢
    rcases List.mem_append.mp hr with h | h
    · exact absurd h (expected_no_produced B s.inbound.items s.sub r)
    · simp only [List.mem_singleton, Event.produced.injEq] at h
      rw [h]

/-- C6 witness: a burst of two pending messages is fully handled, in order,
before the single production attempt at the end of the iteration. -/
theorem c6_strict_drain_priority_witness :
    (runIter bCount sBurst).evs =
      expectedDrainEvents bCount sBurst.sub sBurst.inbound.items ++
        [Event.produced (Except.ok (PyVal.int 7))] :=
  c6_strict_drain_priority bCount sBurst (Except.ok (PyVal.int 7))
    (by
      show Event.produced (Except.ok (PyVal.int 7)) ∈
        [Event.handled (PyVal.int 1) none, Event.handled (PyVal.int 2) none,
          Event.produced (Except.ok (PyVal.int 7))]
      simp)

/-- C7: the Stop sentinel is a distinguished constructor, so no payload can
coincide with it; the `isinstance` test recognises exactly the sentinel;
draining the sentinel at the head of the queue always shuts the worker
down; and the worker shuts down only if the sentinel was among the drained
messages. -/
theorem c7_stop_sentinel_soundness (B : Behavior σ) :
    (∀ v : PyVal, Msg.payload v ≠ Msg.stop) ∧
    (∀ m : Msg, isStopMessage m = true ↔ m = Msg.stop) ∧
    (∀ (rest : List Msg) (out : Queue Item) (st : σ),
      drain B (Msg.stop :: rest) out st =
        .stopped (Queue.close out) st [Event.stopDrained] rest) ∧
    (∀ (msgs : List Msg) (out : Queue Item) (st : σ) (out2 : Queue Item) (st2 : σ)
      (evs : List Event) (rest : List Msg),
      drain B msgs out st = .stopped out2 st2 evs rest → Msg.stop ∈ msgs) := by
  refine ⟨fun v h => Msg.noConfusion h, fun m => ?_, fun rest out st => rfl,
    fun msgs out st out2 st2 evs rest h =>
      drain_stopped_mem B msgs out st out2 st2 evs rest h⟩
  cases m with
  | stop => simp [isStopMessage]
  | payload v => simp [isStopMessage]

/-- C7 witness: the sentinel at the head of the inbound queue shuts the
drain loop down, a shutdown implies the sentinel was drained, and a payload
is never mistaken for the sentinel. -/
theorem c7_stop_sentinel_soundness_witness :
    drain bCount [Msg.stop] ⟨[], 0, false⟩ () =
      .stopped (Queue.close ⟨[], 0, false⟩) () [Event.stopDrained] [] ∧
    Msg.stop ∈ ([Msg.stop] : List Msg) ∧
    isStopMessage Msg.stop = true ∧
    isStopMessage (Msg.payload (PyVal.int 3)) = false :=
  ⟨(c7_stop_sentinel_soundness bCount).2.2.1 [] ⟨[], 0, false⟩ (),
   (c7_stop_sentinel_soundness bCount).2.2.2 [Msg.stop] ⟨[], 0, false⟩ ()
     (Queue.close ⟨[], 0, false⟩) () [Event.stopDrained] []
     ((c7_stop_sentinel_soundness bCount).2.2.1 [] ⟨[], 0, false⟩ ()),
   ((c7_stop_sentinel_soundness bCount).2.1 Msg.stop).mpr rfl, rfl⟩

/-- C10 witness: at 100 buffered items the default injectable queue is
full while the default core producer queue is not. -/
theorem c10_default_buffer_capacity_witness :
    (injectableInitDefault none none (PyVal.dict [])).2.outbound.maxsize = 100 ∧
    Queue.full ⟨List.replicate 100 (Item.val PyVal.none),
      (injectableInitDefault none none (PyVal.dict [])).2.outbound.maxsize, false⟩ = true ∧
    Queue.full ⟨List.replicate 100 (Item.val PyVal.none),
      producerInitDefault.outbound.maxsize, false⟩ = false :=
  ⟨(c10_default_buffer_capacity none none (PyVal.dict [])).1,
   ((c10_default_buffer_capacity none none (PyVal.dict [])).2.1 _).mpr (by simp),
   (c10_default_buffer_capacity none none (PyVal.dict [])).2.2.2.1 _⟩

end Producers
